import Mathlib

/-!
A shallow embedding of the multipath connection orchestrator (`conn.go` of
benjojo/multipath) and proofs about it.

Modelling conventions:
* Go `uint64` values are `Nat` reduced modulo `U64 = 2 ^ 64` exactly where the
  source performs arithmetic that can wrap (`atomic.AddUint64`, the
  `minFrameNumber - 1` initialisation).
* Pointers (`*subflow`, `*sendFrame`) are modelled by values carrying a
  numeric `id` (for subflows) playing the role of pointer identity.
* Channels: a subflow's `sendQueue` (a buffered Go channel) is modelled as a
  list of frames together with a capacity; a non-blocking send (`select` with
  `default`) succeeds exactly when the queue length is below capacity, and a
  blocking send appends unconditionally (it succeeds once space frees up).
* Time (`time.Time` / `time.Duration`) is modelled as `Nat` instants;
  `time.Since(t)` at instant `now` is the truncated difference `now - t`
  (for `now < t` Go yields a negative duration, which compares `> timer`
  as `false`, matching truncated subtraction against a `Nat` timer).
* Concurrent methods are modelled as sequential state transformers; a call
  that in Go would block or spawn a goroutine records that fact in an
  explicit outcome value instead.
-/

namespace Multipath

/-- `2 ^ 64`, the modulus of Go's `uint64` arithmetic. -/
def U64 : Nat := 18446744073709551616

/-- Modelled from the spec: the error values surfaced by the orchestrator
(`ErrClosed` is declared outside the provided source); §7 names the
closed-connection error, fatal to the call. -/
inductive GoErr where
  | ErrClosed
  deriving DecidableEq, Repr

/-- Modelled from the spec: the frame record (`sendFrame` is declared outside
the provided source). §3: a frame is
`{frameNumber, payload, retransmissionCount, beingRetransmitted (atomic)}`;
`conn.go` accesses the fields `fn`, `retransmissions` and
`beingRetransmitted` (a `uint64` used as a 0/1 flag). -/
structure sendFrame where
  fn : Nat
  payload : List Nat
  retransmissions : Nat
  beingRetransmitted : Nat
  deriving DecidableEq, Repr

/-- Modelled from the spec: the orchestrator-side subflow handle (`subflow`
is declared outside the provided source). §3/§6: an outbound queue (bounded,
with non-blocking and blocking enqueue), a closed-signal channel `chClose`,
an RTT estimate read by `getRTT()` and an adaptive retransmission timeout
read by `retransTimer()`. `id` models pointer identity. -/
structure subflow where
  id : Nat
  rtt : Nat
  sendQueue : List sendFrame
  sendQueueCap : Nat
  chCloseClosed : Bool
  retransTimerVal : Nat
  deriving DecidableEq, Repr

/-- `sf.getRTT()`: the subflow's current RTT estimate. -/
def subflow.getRTT (sf : subflow) : Nat := sf.rtt

/-- `sf.retransTimer()`: the subflow's current adaptive retransmission
timeout. -/
def subflow.retransTimer (sf : subflow) : Nat := sf.retransTimerVal

/-- Modelled from the spec: the pending-acknowledgment record (`pendingAck`
is declared outside the provided source). §3:
`{frameNumber, sentAt, outboundSubflow: reference, frame: reference}`;
`conn.go` reads `fn`, `sentAt`, `outboundSf.retransTimer()` and `framePtr`.
The outbound-subflow reference is represented by the value its
`retransTimer()` returns at sweep time. -/
structure pendingAck where
  fn : Nat
  sentAt : Nat
  outboundSfRetransTimer : Nat
  framePtr : sendFrame
  deriving DecidableEq, Repr

/-- The connection state of `mpConn` (conn.go lines 11-22). The receive
queue (an external collaborator) is modelled by the one bit of its state the
orchestrator drives: whether `recvQueue.close()` has been called.
`tryRetransmit` (a notification channel) has no state that the claims
touch and is omitted. -/
structure mpConn where
  cid : Nat
  lastFN : Nat
  subflows : List subflow
  closed : Bool
  recvQueueClosed : Bool
  pendingAckMap : List pendingAck
  deriving DecidableEq, Repr

/-- `newMPConn(cid)` (conn.go lines 24-32): a fresh connection whose frame
counter `lastFN` is initialised to `minFrameNumber - 1` in `uint64`
arithmetic. `minFrameNumber` is a constant declared outside the provided
source; it is threaded through as the parameter `minFN`. -/
def newMPConn (cid minFN : Nat) : mpConn :=
  { cid := cid
    lastFN := (minFN + (U64 - 1)) % U64
    subflows := []
    closed := false
    recvQueueClosed := false
    pendingAckMap := [] }

/-- Insert `a` into `l` keeping `l` ordered by the key `key`. Together with
`sortByKey` this models Go's `sort.Slice(s, less)` where
`less i j = key s[i] < key s[j]`: `sort.Slice` promises some permutation
ordered under the comparator, which for a `Nat` key is exactly a
nondecreasing-key permutation. -/
def insertByKey (key : α → Nat) (a : α) : List α → List α
  | [] => [a]
  | b :: l => if key a ≤ key b then a :: b :: l else b :: insertByKey key a l

/-- Sort by a `Nat` key (see `insertByKey`). -/
def sortByKey (key : α → Nat) : List α → List α
  | [] => []
  | a :: l => insertByKey key a (sortByKey key l)

/-- `sortedSubflows` (conn.go lines 150-159): a copy of the subflow set
sorted ascending by `getRTT()`. -/
def sortedSubflows (c : mpConn) : List subflow :=
  sortByKey subflow.getRTT c.subflows

/-- A non-blocking send on `sf.sendQueue` succeeds: the buffered channel has
space. -/
def hasCapacity (sf : subflow) : Bool := sf.sendQueue.length < sf.sendQueueCap

/-- `sf.sendQueue <- frame` resolved against the connection state: append
`f` to the queue of the subflow whose pointer identity is `sfId`. -/
def enqueueOnSubflow (c : mpConn) (sfId : Nat) (f : sendFrame) : mpConn :=
  { c with subflows := c.subflows.map fun sf =>
      if sf.id = sfId then { sf with sendQueue := sf.sendQueue ++ [f] } else sf }

/-- Modelled from the spec: `composeFrame` is declared outside the provided
source; §3/§4.1 say it stamps the payload with the given frame number,
producing a fresh frame (zero retransmissions, guard flag clear). -/
def composeFrame (fn : Nat) (b : List Nat) : sendFrame :=
  { fn := fn, payload := b, retransmissions := 0, beingRetransmitted := 0 }

/-- How a `Write` call disposed of its frame. -/
inductive writeOutcome where
  | enqueuedNonblocking (sfId : Nat)
  | enqueuedBlocking (sfId : Nat)
  | errClosed
  deriving DecidableEq, Repr

/-- The full result of one `Write` call: the updated connection, the
returned `(n, err)` pair, the frame that was composed and stamped, and the
way it was (or was not) enqueued. -/
structure writeResult where
  conn : mpConn
  n : Nat
  err : Option GoErr
  frame : sendFrame
  outcome : writeOutcome
  deriving DecidableEq, Repr

/-- `Write` (conn.go lines 37-53). Stamps the frame with
`atomic.AddUint64(&bc.lastFN, 1)`; tries a non-blocking enqueue on each
subflow in ascending-RTT order (first loop, `select`/`default`); if none has
capacity, blocks on the head of a fresh sorted snapshot (second loop, which
returns inside its first iteration); with no subflows at all, returns
`(0, ErrClosed)`. -/
def Write (c : mpConn) (b : List Nat) : writeResult :=
  let fn := (c.lastFN + 1) % U64
  let frame := composeFrame fn b
  let c1 : mpConn := { c with lastFN := fn }
  match (sortedSubflows c1).find? hasCapacity with
  | some sf =>
      { conn := enqueueOnSubflow c1 sf.id frame, n := b.length, err := none
        frame := frame, outcome := .enqueuedNonblocking sf.id }
  | none =>
      match sortedSubflows c1 with
      | [] => { conn := c1, n := 0, err := some .ErrClosed
                frame := frame, outcome := .errClosed }
      | sf :: _ =>
          { conn := enqueueOnSubflow c1 sf.id frame, n := b.length, err := none
            frame := frame, outcome := .enqueuedBlocking sf.id }

/-- `bc.close()` (conn.go lines 63-66): set the closed flag and close the
receive queue. -/
def close (c : mpConn) : mpConn :=
  { c with closed := true, recvQueueClosed := true }

/-- `remove(theSubflow)` (conn.go lines 167-181): rebuild the subflow set
without the given subflow (pointer identity, modelled by `sfId`), and if the
result is empty, close the whole connection. -/
def remove (c : mpConn) (sfId : Nat) : mpConn :=
  let remains := c.subflows.filter fun sf => sf.id != sfId
  let c2 : mpConn := { c with subflows := remains }
  if remains.length = 0 then close c2 else c2

/-- How one pass of `retransmit`'s body ended. -/
inductive retransmitResult where
  | guardSkip
  | abortClosed
  | enqueued (sfId : Nat)
  | waitingForSignal
  deriving DecidableEq, Repr

/-- `retransmit(frame)` (conn.go lines 102-148), one pass of its loop.
If the frame's atomic `beingRetransmitted` flag is already 1, return at once
with nothing changed (lines 103-105). Otherwise the flag is set (and cleared
again by the deferred store on return): if the connection is closed, abort;
otherwise try each subflow of the RTT-sorted snapshot, skipping those whose
`chClose` has fired, enqueueing on the first with capacity and incrementing
`frame.retransmissions`; if none accepts, the call would block on the
`tryRetransmit` signal, recorded as `waitingForSignal` (flag still set). -/
def retransmit (c : mpConn) (f : sendFrame) : mpConn × sendFrame × retransmitResult :=
  if f.beingRetransmitted = 1 then (c, f, .guardSkip)
  else if c.closed then (c, f, .abortClosed)
  else
    match (sortedSubflows c).find? (fun sf => !sf.chCloseClosed && hasCapacity sf) with
    | some sf =>
        let f2 : sendFrame :=
          { f with retransmissions := f.retransmissions + 1, beingRetransmitted := 0 }
        (enqueueOnSubflow c sf.id f2, f2, .enqueued sf.id)
    | none => (c, { f with beingRetransmitted := 1 }, .waitingForSignal)

/-- `isPendingAck(fn)` (conn.go lines 229-237) with the connection's
pending-acknowledgment map passed explicitly: for `fn > minFrameNumber`,
whether the map holds an entry under `fn`; for `fn ≤ minFrameNumber`,
`false` unconditionally. -/
def isPendingAck (minFN : Nat) (m : List pendingAck) (fn : Nat) : Bool :=
  if fn > minFN then (m.find? fun p => p.fn == fn).isSome
  else false

/-- `time.Since(frame.sentAt) > frame.outboundSf.retransTimer()`
(conn.go line 196) at instant `now`. -/
def overdue (now : Nat) (p : pendingAck) : Bool :=
  now - p.sentAt > p.outboundSfRetransTimer

/-- `delete(bc.pendingAckMap, fn)` on the association-list model of the
map. -/
def deletePending (m : List pendingAck) (fn : Nat) : List pendingAck :=
  m.filter fun q => q.fn != fn

/-- What one reconciliation tick did: the frame numbers for which a
`go bc.retransmit(...)` task was spawned, the frame numbers whose buffers
were released and whose map entries were deleted, and the resulting map. -/
structure sweepResult where
  spawned : List Nat
  released : List Nat
  pendingAckMap : List pendingAck
  deriving DecidableEq, Repr

/-- The per-entry loop of `retransmitLoop` (conn.go lines 208-224) over the
sorted overdue list: an entry still judged pending by `isPendingAck` spawns
a retransmission task when the frame's guard flag is clear; otherwise the
frame's buffer is released and its map entry deleted. The map `m` evolves
through the deletions, as `bc.pendingAckMap` does in the source. -/
def sweepProcess (minFN : Nat) (m : List pendingAck) : List pendingAck → sweepResult
  | [] => { spawned := [], released := [], pendingAckMap := m }
  | p :: rest =>
      if isPendingAck minFN m p.fn then
        let r := sweepProcess minFN m rest
        if p.framePtr.beingRetransmitted = 0 then
          { r with spawned := p.fn :: r.spawned }
        else r
      else
        let r := sweepProcess minFN (deletePending m p.fn) rest
        { r with released := p.fn :: r.released }

/-- The collection phase of `retransmitLoop` (conn.go lines 193-206): the
snapshot of overdue entries (the inner `pendingAckMap[fn] != nil` recheck is
vacuous while iterating the same map), sorted ascending by frame number. -/
def overdueSorted (c : mpConn) (now : Nat) : List pendingAck :=
  sortByKey pendingAck.fn (c.pendingAckMap.filter (overdue now))

/-- One tick of `retransmitLoop` (conn.go lines 183-227) at instant `now`:
`none` when the closed check terminates the loop, otherwise the result of
collecting, sorting and processing the overdue entries. -/
def sweepTick (minFN : Nat) (c : mpConn) (now : Nat) : Option sweepResult :=
  if c.closed then none
  else some (sweepProcess minFN c.pendingAckMap (overdueSorted c now))

/-- The frames stamped by a sequence of `Write` calls, in call order. -/
def writeAll (c : mpConn) : List (List Nat) → List sendFrame
  | [] => []
  | b :: bs =>
      let r := Write c b
      r.frame :: writeAll r.conn bs

/-! ### Concrete states used to exercise the definitions -/

/-- An idle fast subflow (RTT 10, empty queue of capacity 2). -/
def sfFastIdle : subflow :=
  { id := 1, rtt := 10, sendQueue := [], sendQueueCap := 2
    chCloseClosed := false, retransTimerVal := 30 }

/-- An idle slow subflow (RTT 50, empty queue of capacity 2). -/
def sfSlowIdle : subflow :=
  { id := 2, rtt := 50, sendQueue := [], sendQueueCap := 2
    chCloseClosed := false, retransTimerVal := 90 }

/-- A fast subflow whose queue is at capacity. -/
def sfFastFull : subflow :=
  { id := 1, rtt := 10
    sendQueue := [{ fn := 5, payload := [1], retransmissions := 0
                    beingRetransmitted := 0 }]
    sendQueueCap := 1, chCloseClosed := false, retransTimerVal := 30 }

/-- A slow subflow whose queue is at capacity. -/
def sfSlowFull : subflow :=
  { id := 2, rtt := 50
    sendQueue := [{ fn := 6, payload := [2], retransmissions := 0
                    beingRetransmitted := 0 }]
    sendQueueCap := 1, chCloseClosed := false, retransTimerVal := 90 }

/-- A two-subflow connection with room on both queues. -/
def connTwoIdle : mpConn :=
  { cid := 0, lastFN := 9, subflows := [sfFastIdle, sfSlowIdle]
    closed := false, recvQueueClosed := false, pendingAckMap := [] }

/-- A two-subflow connection with both queues full. -/
def connTwoFull : mpConn :=
  { cid := 0, lastFN := 9, subflows := [sfFastFull, sfSlowFull]
    closed := false, recvQueueClosed := false, pendingAckMap := [] }

/-- A connection with a single subflow. -/
def connOneSub : mpConn :=
  { cid := 1, lastFN := 20, subflows := [sfFastIdle], closed := false
    recvQueueClosed := false, pendingAckMap := [] }

/-- A pending-acknowledgment entry sitting exactly at the sentinel frame
number `2 ^ 32` — the number the first `Write` of a fresh connection
stamps. -/
def pendingSentinelEntry : pendingAck :=
  { fn := 4294967296, sentAt := 0, outboundSfRetransTimer := 30
    framePtr := { fn := 4294967296, payload := [9], retransmissions := 0
                  beingRetransmitted := 0 } }

/-- A connection whose pending-acknowledgment map holds only the
sentinel-numbered entry. -/
def connSentinelPending : mpConn :=
  { cid := 0, lastFN := 4294967296, subflows := [sfFastIdle], closed := false
    recvQueueClosed := false, pendingAckMap := [pendingSentinelEntry] }

/-- A pending entry with a frame number above the sentinel `2 ^ 32`. -/
def pendingAboveSentinel : pendingAck :=
  { fn := 4294967297, sentAt := 0, outboundSfRetransTimer := 1
    framePtr := { fn := 4294967297, payload := [3], retransmissions := 0
                  beingRetransmitted := 0 } }

/-- A pending entry with the low frame number 10. -/
def pendingLowTen : pendingAck :=
  { fn := 10, sentAt := 0, outboundSfRetransTimer := 1
    framePtr := { fn := 10, payload := [2], retransmissions := 0
                  beingRetransmitted := 0 } }

/-- A connection holding one pending entry below and one above the
sentinel. -/
def connMixedPending : mpConn :=
  { cid := 0, lastFN := 4294967297, subflows := [sfFastIdle], closed := false
    recvQueueClosed := false, pendingAckMap := [pendingLowTen, pendingAboveSentinel] }

/-- Overdue pending entry with frame number 3. -/
def entryThree : pendingAck :=
  { fn := 3, sentAt := 0, outboundSfRetransTimer := 1
    framePtr := { fn := 3, payload := [1], retransmissions := 0
                  beingRetransmitted := 0 } }

/-- Overdue pending entry with frame number 7. -/
def entrySeven : pendingAck :=
  { fn := 7, sentAt := 0, outboundSfRetransTimer := 1
    framePtr := { fn := 7, payload := [2], retransmissions := 0
                  beingRetransmitted := 0 } }

/-- Overdue pending entry with frame number 5. -/
def entryFive : pendingAck :=
  { fn := 5, sentAt := 0, outboundSfRetransTimer := 1
    framePtr := { fn := 5, payload := [3], retransmissions := 0
                  beingRetransmitted := 0 } }

/-- A connection whose pending map holds overdue frames 3, 7, 5 in that
insertion order. -/
def connOverdueThreeSevenFive : mpConn :=
  { cid := 0, lastFN := 7, subflows := [sfFastIdle], closed := false
    recvQueueClosed := false
    pendingAckMap := [entryThree, entrySeven, entryFive] }

/-! ### Lemmas about the key-based insertion sort -/

theorem insertByKey_perm (key : α → Nat) (a : α) (l : List α) :
    (insertByKey key a l).Perm (a :: l) := by
  induction l with
  | nil => simp [insertByKey]
  | cons b l ih =>
      simp only [insertByKey]
      by_cases h : key a ≤ key b
      · simp [h]
      · simp only [h, if_false]
        exact (ih.cons b).trans (List.Perm.swap a b l)

theorem sortByKey_perm (key : α → Nat) (l : List α) :
    (sortByKey key l).Perm l := by
  induction l with
  | nil => simp [sortByKey]
  | cons a l ih =>
      exact (insertByKey_perm key a (sortByKey key l)).trans (ih.cons a)

theorem mem_sortByKey {key : α → Nat} {x : α} {l : List α} :
    x ∈ sortByKey key l ↔ x ∈ l :=
  (sortByKey_perm key l).mem_iff

theorem mem_insertByKey {key : α → Nat} {x a : α} {l : List α} :
    x ∈ insertByKey key a l ↔ x = a ∨ x ∈ l := by
  rw [(insertByKey_perm key a l).mem_iff, List.mem_cons]

theorem pairwise_insertByKey {key : α → Nat} {a : α} {l : List α}
    (h : l.Pairwise fun x y => key x ≤ key y) :
    (insertByKey key a l).Pairwise fun x y => key x ≤ key y := by
  induction l with
  | nil => simp [insertByKey]
  | cons b l ih =>
      rcases List.pairwise_cons.mp h with ⟨hb, hl⟩
      simp only [insertByKey]
      by_cases hab : key a ≤ key b
      · rw [if_pos hab]
        refine List.pairwise_cons.mpr ⟨?_, h⟩
        intro x hx
        rcases List.mem_cons.mp hx with rfl | hx
        · exact hab
        · exact le_trans hab (hb x hx)
      · rw [if_neg hab]
        refine List.pairwise_cons.mpr ⟨?_, ih hl⟩
        intro x hx
        rcases mem_insertByKey.mp hx with rfl | hx
        · exact Nat.le_of_not_le hab
        · exact hb x hx

theorem pairwise_sortByKey (key : α → Nat) (l : List α) :
    (sortByKey key l).Pairwise fun x y => key x ≤ key y := by
  induction l with
  | nil => simp [sortByKey]
  | cons a l ih => exact pairwise_insertByKey ih

/-- The head of a key-sorted list has a minimal key among the original
elements. -/
theorem sortByKey_head_min {key : α → Nat} {l : List α} {h : α} {t : List α}
    (hs : sortByKey key l = h :: t) : ∀ x ∈ l, key h ≤ key x := by
  intro x hx
  have hx2 : x ∈ h :: t := by
    rw [← hs]; exact mem_sortByKey.mpr hx
  rcases List.mem_cons.mp hx2 with rfl | hx2
  · exact le_refl _
  · have hp := pairwise_sortByKey key l
    rw [hs] at hp
    exact (List.pairwise_cons.mp hp).1 x hx2

/-! ### Lemmas about the `Write` path -/

theorem enqueueOnSubflow_lastFN (c : mpConn) (i : Nat) (f : sendFrame) :
    (enqueueOnSubflow c i f).lastFN = c.lastFN := rfl

theorem Write_frame_fn (c : mpConn) (b : List Nat) :
    (Write c b).frame.fn = (c.lastFN + 1) % U64 := by
  simp only [Write]
  split
  · rfl
  · split <;> rfl

theorem Write_conn_lastFN (c : mpConn) (b : List Nat) :
    (Write c b).conn.lastFN = (c.lastFN + 1) % U64 := by
  simp only [Write]
  split
  · rfl
  · split <;> rfl

/-- Every frame stamped by a run of `Write` calls that does not wrap the
64-bit counter has a frame number strictly above the starting counter value
and at most the starting value plus the number of calls. -/
theorem writeAll_fn_bounds (bs : List (List Nat)) :
    ∀ c : mpConn, c.lastFN + bs.length < U64 →
      ∀ g ∈ writeAll c bs, c.lastFN < g.fn ∧ g.fn ≤ c.lastFN + bs.length := by
  induction bs with
  | nil => intro c _ g hg; simp [writeAll] at hg
  | cons b bs ih =>
      intro c hc g hg
      have hmod : (c.lastFN + 1) % U64 = c.lastFN + 1 := by
        apply Nat.mod_eq_of_lt
        simp only [List.length_cons] at hc
        omega
      have hfn : (Write c b).frame.fn = c.lastFN + 1 := by
        rw [Write_frame_fn, hmod]
      have hconn : (Write c b).conn.lastFN = c.lastFN + 1 := by
        rw [Write_conn_lastFN, hmod]
      simp only [writeAll, List.mem_cons] at hg
      rcases hg with rfl | hg
      · simp only [List.length_cons]
        omega
      · have hbound : (Write c b).conn.lastFN + bs.length < U64 := by
          rw [hconn]; simp only [List.length_cons] at hc; omega
        have := ih (Write c b).conn hbound g hg
        rw [hconn] at this
        simp only [List.length_cons]
        omega

/-- The frames stamped by a non-wrapping run of `Write` calls carry
pairwise strictly increasing frame numbers. -/
theorem writeAll_pairwise_lt (bs : List (List Nat)) :
    ∀ c : mpConn, c.lastFN + bs.length < U64 →
      (writeAll c bs).Pairwise fun f g => f.fn < g.fn := by
  induction bs with
  | nil => intro c _; simp [writeAll]
  | cons b bs ih =>
      intro c hc
      have hmod : (c.lastFN + 1) % U64 = c.lastFN + 1 := by
        apply Nat.mod_eq_of_lt
        simp only [List.length_cons] at hc
        omega
      have hconn : (Write c b).conn.lastFN = c.lastFN + 1 := by
        rw [Write_conn_lastFN, hmod]
      have hbound : (Write c b).conn.lastFN + bs.length < U64 := by
        rw [hconn]; simp only [List.length_cons] at hc; omega
      simp only [writeAll]
      refine List.pairwise_cons.mpr ⟨?_, ih (Write c b).conn hbound⟩
      intro g hg
      have hfn : (Write c b).frame.fn = c.lastFN + 1 := by
        rw [Write_frame_fn, hmod]
      have := (writeAll_fn_bounds bs (Write c b).conn hbound g hg).1
      rw [hconn] at this
      omega

/-- Claim C1: for every sequence of `Write` calls on one connection (whose
64-bit frame counter does not wrap during the run), the frame numbers
stamped on the composed frames are strictly increasing and never reused, and
each `Write` stamps its frame with the incremented counter value
`(lastFN + 1) % 2 ^ 64`. -/
theorem write_frame_numbers_strictly_increasing (c : mpConn) (bs : List (List Nat))
    (b : List Nat) (h : c.lastFN + bs.length < U64) :
    ((writeAll c bs).Pairwise fun f g => f.fn < g.fn) ∧
      (Write c b).frame.fn = (c.lastFN + 1) % U64 :=
  ⟨writeAll_pairwise_lt bs c h, Write_frame_fn c b⟩

/-- Witness for C1 on a fresh connection (sentinel `2 ^ 32`) and three
writes. -/
theorem write_frame_numbers_strictly_increasing_witness :
    ((writeAll (newMPConn 0 4294967296) [[1], [2], [3]]).Pairwise
        fun f g => f.fn < g.fn) ∧
      (Write (newMPConn 0 4294967296) [4]).frame.fn =
        ((newMPConn 0 4294967296).lastFN + 1) % U64 :=
  write_frame_numbers_strictly_increasing (newMPConn 0 4294967296)
    [[1], [2], [3]] [4] (by decide)

theorem sortedSubflows_set_lastFN (c : mpConn) (x : Nat) :
    sortedSubflows { c with lastFN := x } = sortedSubflows c := rfl

/-- `Write` when some subflow of the RTT-sorted snapshot accepts the
non-blocking enqueue. -/
theorem Write_eq_of_find_some (c : mpConn) (b : List Nat) (sf : subflow)
    (h : (sortedSubflows c).find? hasCapacity = some sf) :
    Write c b =
      { conn := enqueueOnSubflow { c with lastFN := (c.lastFN + 1) % U64 } sf.id
          (composeFrame ((c.lastFN + 1) % U64) b)
        n := b.length, err := none
        frame := composeFrame ((c.lastFN + 1) % U64) b
        outcome := .enqueuedNonblocking sf.id } := by
  simp only [Write, sortedSubflows_set_lastFN, h]

/-- `Write` when no subflow accepts the non-blocking enqueue and the sorted
snapshot is nonempty: the blocking fallback onto its head. -/
theorem Write_eq_of_find_none (c : mpConn) (b : List Nat) (sf : subflow)
    (t : List subflow) (hnone : (sortedSubflows c).find? hasCapacity = none)
    (hs : sortedSubflows c = sf :: t) :
    Write c b =
      { conn := enqueueOnSubflow { c with lastFN := (c.lastFN + 1) % U64 } sf.id
          (composeFrame ((c.lastFN + 1) % U64) b)
        n := b.length, err := none
        frame := composeFrame ((c.lastFN + 1) % U64) b
        outcome := .enqueuedBlocking sf.id } := by
  simp only [Write, sortedSubflows_set_lastFN, hnone]
  rw [hs]

/-- `Write` on a connection with no subflows: `(0, ErrClosed)`, the frame
still being composed and stamped first. -/
theorem Write_eq_of_no_subflows (c : mpConn) (b : List Nat)
    (h : c.subflows = []) :
    Write c b =
      { conn := { c with lastFN := (c.lastFN + 1) % U64 }, n := 0
        err := some .ErrClosed
        frame := composeFrame ((c.lastFN + 1) % U64) b
        outcome := .errClosed } := by
  have hs : sortedSubflows c = [] := by
    simp [sortedSubflows, h, sortByKey]
  simp only [Write, sortedSubflows_set_lastFN, hs, List.find?_nil]

/-- Claim C2: on a `Write` whose subflows have pairwise-distinct RTT
estimates and all have non-blocking capacity, the frame is enqueued
(non-blocking) onto the unique lowest-RTT subflow, and `Write` returns the
full payload length with no error. -/
theorem write_fastest_first (c : mpConn) (b : List Nat)
    (hne : c.subflows ≠ [])
    (hdis : c.subflows.Pairwise fun s t => s.rtt ≠ t.rtt)
    (hcap : ∀ t ∈ c.subflows, t.sendQueue.length < t.sendQueueCap) :
    ∃ sf, sf ∈ c.subflows ∧ (∀ t ∈ c.subflows, sf.rtt ≤ t.rtt) ∧
      (∀ t ∈ c.subflows, t ≠ sf → sf.rtt < t.rtt) ∧
      (Write c b).outcome = .enqueuedNonblocking sf.id ∧
      (Write c b).n = b.length ∧ (Write c b).err = none ∧
      (Write c b).conn = enqueueOnSubflow { c with lastFN := (c.lastFN + 1) % U64 }
        sf.id ((Write c b).frame) := by
  cases hs : sortedSubflows c with
  | nil =>
      exfalso
      apply hne
      have hp := sortByKey_perm subflow.getRTT c.subflows
      rw [sortedSubflows] at hs
      rw [hs] at hp
      exact hp.symm.eq_nil
  | cons h t =>
      have hhmem : h ∈ c.subflows := by
        apply mem_sortByKey.mp
        rw [sortedSubflows] at hs
        rw [hs]
        exact List.mem_cons_self h t
      have hmin : ∀ x ∈ c.subflows, h.rtt ≤ x.rtt := by
        intro x hx
        rw [sortedSubflows] at hs
        exact sortByKey_head_min hs x hx
      have hcaph : hasCapacity h = true := by
        simp only [hasCapacity, decide_eq_true_eq]
        exact hcap h hhmem
      have hfind : (sortedSubflows c).find? hasCapacity = some h := by
        rw [hs]
        exact List.find?_cons_of_pos t hcaph
      have hw := Write_eq_of_find_some c b h hfind
      refine ⟨h, hhmem, hmin, ?_, ?_, ?_, ?_, ?_⟩
      · intro x hx hxh
        have hne2 := (hdis.forall (fun s t hst => hst.symm)) hx hhmem hxh
        exact Nat.lt_of_le_of_ne (hmin x hx) (Ne.symm hne2)
      · rw [hw]
      · rw [hw]
      · rw [hw]
      · rw [hw]

/-- Witness for C2: two subflows with RTTs 10 and 50 and roomy queues; the
frame goes to the RTT-10 subflow. -/
theorem write_fastest_first_witness :
    ∃ sf, sf ∈ connTwoIdle.subflows ∧
      (∀ t ∈ connTwoIdle.subflows, sf.rtt ≤ t.rtt) ∧
      (∀ t ∈ connTwoIdle.subflows, t ≠ sf → sf.rtt < t.rtt) ∧
      (Write connTwoIdle [7, 8]).outcome = .enqueuedNonblocking sf.id ∧
      (Write connTwoIdle [7, 8]).n = [7, 8].length ∧
      (Write connTwoIdle [7, 8]).err = none ∧
      (Write connTwoIdle [7, 8]).conn =
        enqueueOnSubflow { connTwoIdle with lastFN := (connTwoIdle.lastFN + 1) % U64 }
          sf.id ((Write connTwoIdle [7, 8]).frame) :=
  write_fastest_first connTwoIdle [7, 8] (by decide) (by decide) (by decide)

/-- Claim C3: when every subflow's non-blocking enqueue would fail (all
outbound queues at capacity) but a unique lowest-RTT subflow exists, `Write`
falls through to the blocking enqueue onto that lowest-RTT subflow and
returns the full payload length with no error — the payload is never
dropped. -/
theorem write_blocking_fallback (c : mpConn) (b : List Nat) (sf : subflow)
    (hmem : sf ∈ c.subflows)
    (hmin : ∀ t ∈ c.subflows, t ≠ sf → sf.rtt < t.rtt)
    (hfull : ∀ t ∈ c.subflows, ¬ t.sendQueue.length < t.sendQueueCap) :
    (Write c b).outcome = .enqueuedBlocking sf.id ∧
      (Write c b).n = b.length ∧ (Write c b).err = none ∧
      (Write c b).conn = enqueueOnSubflow { c with lastFN := (c.lastFN + 1) % U64 }
        sf.id ((Write c b).frame) := by
  have hnone : (sortedSubflows c).find? hasCapacity = none := by
    rw [List.find?_eq_none]
    intro x hx
    simp only [hasCapacity, decide_eq_true_eq]
    exact hfull x (mem_sortByKey.mp hx)
  cases hs : sortedSubflows c with
  | nil =>
      exfalso
      have : sf ∈ sortedSubflows c := mem_sortByKey.mpr hmem
      rw [hs] at this
      exact absurd this (List.not_mem_nil sf)
  | cons h t =>
      have hs2 := hs
      rw [sortedSubflows] at hs2
      have hhmem : h ∈ c.subflows := by
        apply mem_sortByKey.mp
        rw [hs2]
        exact List.mem_cons_self h t
      have hhead : h = sf := by
        by_contra hne
        have h1 : sf.rtt < h.rtt := hmin h hhmem hne
        have h2 : h.rtt ≤ sf.rtt := by
          rw [sortedSubflows] at hs
          exact sortByKey_head_min hs sf hmem
        omega
      subst hhead
      have hw := Write_eq_of_find_none c b h t hnone hs
      exact ⟨by rw [hw], by rw [hw], by rw [hw], by rw [hw]⟩

/-- Witness for C3: both queues full (capacity 1), the RTT-10 subflow gets
the blocking enqueue. -/
theorem write_blocking_fallback_witness :
    (Write connTwoFull [7]).outcome = .enqueuedBlocking sfFastFull.id ∧
      (Write connTwoFull [7]).n = [7].length ∧
      (Write connTwoFull [7]).err = none ∧
      (Write connTwoFull [7]).conn =
        enqueueOnSubflow { connTwoFull with lastFN := (connTwoFull.lastFN + 1) % U64 }
          sfFastFull.id ((Write connTwoFull [7]).frame) :=
  write_blocking_fallback connTwoFull [7] sfFastFull
    (by decide) (by decide) (by decide)

/-- Claim C4: a `remove` that leaves the subflow set empty closes the
connection (closed flag set, receive queue closed), and a subsequent `Write`
on the still-empty connection returns 0 bytes and the closed-connection
error. -/
theorem remove_last_subflow_closes (c : mpConn) (sfId : Nat) (b : List Nat)
    (h : c.subflows.filter (fun sf => sf.id != sfId) = []) :
    (remove c sfId).closed = true ∧ (remove c sfId).recvQueueClosed = true ∧
      (remove c sfId).subflows = [] ∧
      (Write (remove c sfId) b).n = 0 ∧
      (Write (remove c sfId) b).err = some .ErrClosed ∧
      (Write (remove c sfId) b).outcome = .errClosed := by
  have hr : remove c sfId =
      { c with subflows := [], closed := true, recvQueueClosed := true } := by
    simp [remove, h, close]
  have hw := Write_eq_of_no_subflows (remove c sfId) b (by rw [hr])
  exact ⟨by rw [hr], by rw [hr], by rw [hr], by rw [hw], by rw [hw], by rw [hw]⟩

/-- Witness for C4: removing the only subflow of `connOneSub`. -/
theorem remove_last_subflow_closes_witness :
    (remove connOneSub 1).closed = true ∧
      (remove connOneSub 1).recvQueueClosed = true ∧
      (remove connOneSub 1).subflows = [] ∧
      (Write (remove connOneSub 1) [5]).n = 0 ∧
      (Write (remove connOneSub 1) [5]).err = some .ErrClosed ∧
      (Write (remove connOneSub 1) [5]).outcome = .errClosed :=
  remove_last_subflow_closes connOneSub 1 [5] (by decide)

/-- Claim C5: a `Write` made while the subflow set is empty returns 0 bytes
and `ErrClosed`, and the payload is not enqueued onto any subflow (the
connection still has none). -/
theorem write_on_empty_subflow_set (c : mpConn) (b : List Nat)
    (h : c.subflows = []) :
    (Write c b).n = 0 ∧ (Write c b).err = some .ErrClosed ∧
      (Write c b).outcome = .errClosed ∧ (Write c b).conn.subflows = [] := by
  have hw := Write_eq_of_no_subflows c b h
  refine ⟨by rw [hw], by rw [hw], by rw [hw], ?_⟩
  rw [hw]
  exact h

/-- Witness for C5 on a fresh (subflow-less) connection. -/
theorem write_on_empty_subflow_set_witness :
    (Write (newMPConn 3 4294967296) [1]).n = 0 ∧
      (Write (newMPConn 3 4294967296) [1]).err = some .ErrClosed ∧
      (Write (newMPConn 3 4294967296) [1]).outcome = .errClosed ∧
      (Write (newMPConn 3 4294967296) [1]).conn.subflows = [] :=
  write_on_empty_subflow_set (newMPConn 3 4294967296) [1] (by decide)

/-- Claim C9: calling `retransmit` on a frame whose `beingRetransmitted`
flag is 1 returns immediately: the connection state, the frame (its
retransmission counter included) are unchanged and nothing is enqueued. -/
theorem retransmit_reentrancy_guard (c : mpConn) (f : sendFrame)
    (h : f.beingRetransmitted = 1) :
    retransmit c f = (c, f, .guardSkip) := by
  simp [retransmit, h]

/-- Witness for C9: a frame mid-retransmission is left untouched. -/
theorem retransmit_reentrancy_guard_witness :
    retransmit connTwoIdle
        { fn := 42, payload := [1], retransmissions := 3, beingRetransmitted := 1 } =
      (connTwoIdle,
        { fn := 42, payload := [1], retransmissions := 3, beingRetransmitted := 1 },
        .guardSkip) :=
  retransmit_reentrancy_guard connTwoIdle
    { fn := 42, payload := [1], retransmissions := 3, beingRetransmitted := 1 }
    (by decide)

/-- `newMPConn` initialises the frame counter to `minFrameNumber - 1`
(no wraparound for a sentinel in `[1, 2^64)`). -/
theorem newMPConn_lastFN (cid minFN : Nat) (h1 : 1 ≤ minFN) (h2 : minFN < U64) :
    (newMPConn cid minFN).lastFN = minFN - 1 := by
  show (minFN + (U64 - 1)) % U64 = minFN - 1
  unfold U64 at *
  omega

/-- The first `Write` on a fresh connection stamps exactly the sentinel
`minFrameNumber`. -/
theorem Write_newMPConn_frame_fn (cid minFN : Nat) (b : List Nat)
    (h1 : 1 ≤ minFN) (h2 : minFN < U64) :
    (Write (newMPConn cid minFN) b).frame.fn = minFN := by
  rw [Write_frame_fn, newMPConn_lastFN cid minFN h1 h2]
  unfold U64 at *
  omega

/-- Claim C10: `isPendingAck fn` is `false` for every `fn ≤ minFrameNumber`
regardless of the map's contents — including `fn = minFrameNumber` itself,
which is exactly the number the first `Write` of a fresh connection stamps,
the counter being initialised to `minFrameNumber - 1`. -/
theorem isPendingAck_sentinel_guard (minFN cid fn : Nat) (m : List pendingAck)
    (b : List Nat) (h1 : 1 ≤ minFN) (h2 : minFN < U64) (h3 : fn ≤ minFN) :
    isPendingAck minFN m fn = false ∧
      (newMPConn cid minFN).lastFN = minFN - 1 ∧
      (Write (newMPConn cid minFN) b).frame.fn = minFN ∧
      isPendingAck minFN m (Write (newMPConn cid minFN) b).frame.fn = false := by
  have hguard : ∀ k, k ≤ minFN → isPendingAck minFN m k = false := by
    intro k hk
    simp only [isPendingAck]
    rw [if_neg (by omega)]
  refine ⟨hguard fn h3, newMPConn_lastFN cid minFN h1 h2, ?_, ?_⟩
  · exact Write_newMPConn_frame_fn cid minFN b h1 h2
  · rw [Write_newMPConn_frame_fn cid minFN b h1 h2]
    exact hguard minFN (le_refl minFN)

/-- Witness for C10 at sentinel `2 ^ 32`, with the map actually holding an
entry under the sentinel number. -/
theorem isPendingAck_sentinel_guard_witness :
    isPendingAck 4294967296 [pendingSentinelEntry] 4294967296 = false ∧
      (newMPConn 0 4294967296).lastFN = 4294967296 - 1 ∧
      (Write (newMPConn 0 4294967296) [9]).frame.fn = 4294967296 ∧
      isPendingAck 4294967296 [pendingSentinelEntry]
        (Write (newMPConn 0 4294967296) [9]).frame.fn = false :=
  isPendingAck_sentinel_guard 4294967296 0 4294967296 [pendingSentinelEntry] [9]
    (by decide) (by decide) (by decide)

/-- Counterexample to C6: on a fresh connection with sentinel `2 ^ 32`, the
first `Write` stamps exactly `2 ^ 32`, not a number strictly greater than
the sentinel. -/
theorem first_frame_not_above_sentinel :
    (Write (newMPConn 0 4294967296) [7]).frame.fn = 4294967296 ∧
      ¬ (Write (newMPConn 0 4294967296) [7]).frame.fn > 4294967296 := by
  decide

/-- Claim C6 (amended): the counter starts at `minFrameNumber - 1`, so the
first frame stamped by `Write` on a fresh connection carries exactly
`minFrameNumber` — at least, not strictly above, the sentinel — and no
frame stamped during a non-wrapping run carries a number strictly below
`minFrameNumber`. -/
theorem first_frame_at_least_sentinel (minFN cid : Nat) (b : List Nat)
    (bs : List (List Nat)) (g : sendFrame)
    (h1 : 1 ≤ minFN) (h2 : minFN < U64) (h3 : minFN + bs.length ≤ U64)
    (hg : g ∈ writeAll (newMPConn cid minFN) bs) :
    (Write (newMPConn cid minFN) b).frame.fn = minFN ∧ minFN ≤ g.fn := by
  refine ⟨Write_newMPConn_frame_fn cid minFN b h1 h2, ?_⟩
  have hlast := newMPConn_lastFN cid minFN h1 h2
  have hbound : (newMPConn cid minFN).lastFN + bs.length < U64 := by
    rw [hlast]
    unfold U64 at *
    omega
  have := (writeAll_fn_bounds bs (newMPConn cid minFN) hbound g hg).1
  rw [hlast] at this
  omega

/-- Witness for the amended C6: two writes on a fresh connection with
sentinel `2 ^ 32`; the first stamped frame is the sentinel itself. -/
theorem first_frame_at_least_sentinel_witness :
    (Write (newMPConn 0 4294967296) [7]).frame.fn = 4294967296 ∧
      4294967296 ≤ (composeFrame 4294967296 [1]).fn :=
  first_frame_at_least_sentinel 4294967296 0 [7] [[1], [2]]
    (composeFrame 4294967296 [1]) (by decide) (by decide) (by decide) (by decide)

/-- Processing invariant of the sweep: as long as every processed entry
with a frame number above the sentinel still has an entry under its number
in the evolving map, only sentinel-range (`≤ minFrameNumber`) frame numbers
reach the release-and-delete branch. -/
theorem sweepProcess_released_le_sentinel (minFN : Nat) (l : List pendingAck) :
    ∀ m : List pendingAck,
      (∀ p ∈ l, minFN < p.fn → ((m.find? fun q => q.fn == p.fn).isSome = true)) →
      ∀ fn ∈ (sweepProcess minFN m l).released, fn ≤ minFN := by
  induction l with
  | nil => intro m _ fn hfn; simp [sweepProcess] at hfn
  | cons p rest ih =>
      intro m hm fn hfn
      simp only [sweepProcess] at hfn
      by_cases hp : isPendingAck minFN m p.fn = true
      · rw [if_pos hp] at hfn
        have hfn2 : fn ∈ (sweepProcess minFN m rest).released := by
          by_cases hb : p.framePtr.beingRetransmitted = 0
          · rw [if_pos hb] at hfn; exact hfn
          · rw [if_neg hb] at hfn; exact hfn
        exact ih m (fun q hq hgt => hm q (List.mem_cons_of_mem p hq) hgt) fn hfn2
      · rw [if_neg hp] at hfn
        have hple : p.fn ≤ minFN := by
          by_contra hgt
          push_neg at hgt
          apply hp
          simp only [isPendingAck]
          rw [if_pos hgt]
          exact hm p (List.mem_cons_self p rest) hgt
        rcases List.mem_cons.mp hfn with rfl | hfn2
        · exact hple
        · refine ih (deletePending m p.fn) ?_ fn hfn2
          intro q hq hgt
          have hq2 := hm q (List.mem_cons_of_mem p hq) hgt
          rw [List.find?_isSome] at hq2
          obtain ⟨x, hx, hxq⟩ := hq2
          rw [List.find?_isSome]
          refine ⟨x, ?_, hxq⟩
          simp only [deletePending, List.mem_filter, bne_iff_ne]
          rw [beq_iff_eq] at hxq
          exact ⟨hx, by omega⟩

/-- Claim C7 (amended): absent concurrent mutation (the sequential model),
the reconciliation sweep takes the release-and-delete branch only for
entries at or below the sentinel `minFrameNumber` (which `isPendingAck`
rejects unconditionally); no entry above the sentinel collected from the
snapshot is ever released or deleted by the sweep. -/
theorem sweep_releases_only_sentinel_range (minFN : Nat) (c : mpConn)
    (now : Nat) (r : sweepResult) (h : sweepTick minFN c now = some r) :
    ∀ fn ∈ r.released, fn ≤ minFN := by
  simp only [sweepTick] at h
  by_cases hc : c.closed = true
  · rw [if_pos hc] at h
    exact absurd h (by simp)
  · rw [if_neg hc] at h
    injection h with h
    subst h
    apply sweepProcess_released_le_sentinel
    intro p hp _
    have hpm : p ∈ c.pendingAckMap := by
      have hp2 : p ∈ c.pendingAckMap.filter (overdue now) := by
        rw [overdueSorted] at hp
        exact mem_sortByKey.mp hp
      exact (List.mem_filter.mp hp2).1
    rw [List.find?_isSome]
    exact ⟨p, hpm, by simp⟩

/-- Witness for the amended C7: a sweep over one entry below and one above
the sentinel spawns a retransmission for the high entry and releases only
the low one, whose number is within the sentinel range. -/
theorem sweep_releases_only_sentinel_range_witness :
    sweepTick 4294967296 connMixedPending 100 =
        some { spawned := [4294967297], released := [10]
               pendingAckMap := [pendingAboveSentinel] } ∧
      10 ∈ ({ spawned := [4294967297], released := [10]
              pendingAckMap := [pendingAboveSentinel] } : sweepResult).released ∧
      (10 : Nat) ≤ 4294967296 :=
  ⟨by decide, by decide,
    sweep_releases_only_sentinel_range 4294967296 connMixedPending 100
      { spawned := [4294967297], released := [10]
        pendingAckMap := [pendingAboveSentinel] }
      (by decide) 10 (by decide)⟩

/-- Counterexample to C7 as stated: with no concurrent mutation at all, a
sweep over a map holding an overdue entry at exactly the sentinel frame
number `2 ^ 32` takes the release-and-delete branch — the recheck
`isPendingAck` rejects the sentinel number even though the snapshot
collected it — releasing the frame buffer and deleting the map entry. -/
theorem sweep_release_branch_reachable :
    sweepTick 4294967296 connSentinelPending 100 =
      some { spawned := [], released := [4294967296], pendingAckMap := [] } ∧
      connSentinelPending.pendingAckMap ≠ [] := by
  decide

/-- Claim C8: on a tick of the reconciliation sweep (connection not
closed), the collected entries are exactly the pending-map entries whose
elapsed time since `sentAt` exceeds their outbound subflow's retransmission
timeout, and the list handed to the per-entry processing loop is in strictly
ascending frame-number order. -/
theorem sweep_collects_overdue_in_order (minFN : Nat) (c : mpConn) (now : Nat)
    (p : pendingAck)
    (hnodup : c.pendingAckMap.Pairwise fun q r => q.fn ≠ r.fn)
    (hclosed : c.closed = false) :
    (p ∈ overdueSorted c now ↔ p ∈ c.pendingAckMap ∧ overdue now p = true) ∧
      ((overdueSorted c now).Pairwise fun q r => q.fn < r.fn) ∧
      sweepTick minFN c now =
        some (sweepProcess minFN c.pendingAckMap (overdueSorted c now)) := by
  refine ⟨?_, ?_, ?_⟩
  · rw [overdueSorted, mem_sortByKey, List.mem_filter]
  · have hle := pairwise_sortByKey pendingAck.fn (c.pendingAckMap.filter (overdue now))
    have hfil : (c.pendingAckMap.filter (overdue now)).Pairwise
        fun q r => q.fn ≠ r.fn :=
      hnodup.sublist (List.filter_sublist _)
    have hperm := sortByKey_perm pendingAck.fn (c.pendingAckMap.filter (overdue now))
    have hne : (sortByKey pendingAck.fn
        (c.pendingAckMap.filter (overdue now))).Pairwise fun q r => q.fn ≠ r.fn :=
      (hperm.pairwise_iff fun {_ _} hqr => Ne.symm hqr).mpr hfil
    rw [overdueSorted]
    exact (hle.and hne).imp fun hqr => Nat.lt_of_le_of_ne hqr.1 hqr.2
  · simp [sweepTick, hclosed]

/-- Witness for C8: overdue frames inserted as 3, 7, 5 are handed to the
processing loop in the order 3, 5, 7. -/
theorem sweep_collects_overdue_in_order_witness :
    overdueSorted connOverdueThreeSevenFive 100 =
        [entryThree, entryFive, entrySeven] ∧
      ((entryFive ∈ overdueSorted connOverdueThreeSevenFive 100 ↔
          entryFive ∈ connOverdueThreeSevenFive.pendingAckMap ∧
            overdue 100 entryFive = true) ∧
        ((overdueSorted connOverdueThreeSevenFive 100).Pairwise
          fun q r => q.fn < r.fn) ∧
        sweepTick 1 connOverdueThreeSevenFive 100 =
          some (sweepProcess 1 connOverdueThreeSevenFive.pendingAckMap
            (overdueSorted connOverdueThreeSevenFive 100))) :=
  ⟨by decide,
    sweep_collects_overdue_in_order 1 connOverdueThreeSevenFive 100 entryFive
      (by decide) (by decide)⟩

end Multipath
